import Mathlib

/-!
Verification of the storage-provider layer of the hermes repository.

Only the unit-test file is present in the repository sources; the
implementations under test (the shrink-on-failure virtual allocator, the
OS-backed provider, the budget and instrumentation decorators, and the
pre-reserved arena provider) are declared in headers outside the source
tree.  Each definition below is therefore modelled from the specification
text, as its doc comment records, and the unit tests are used as concrete
checks of the model.
-/

set_option maxRecDepth 4000

namespace Hermes

/-- Modelled from the spec: GRANULE_SIZE, "a single process-wide constant
(power-of-two byte count, platform-tuned)", the size and alignment of one
aligned storage unit (AlignedStorage::size() in the tests).  The code that
defines it is not in the source tree; we fix the customary 4 MiB value.
Only positivity is used by the proofs. -/
def GRANULE_SIZE : Nat := 4 * 1024 * 1024

/-- One megabyte, as in the tests (static const size_t MB = KB * KB). -/
def MB : Nat := 1024 * 1024

/-- Modelled from the spec: the error kinds of section 7 — AllocationFailed
(OS or injected-ceiling refusal, carrying a platform code), BudgetExceeded
(budget decorator only) and BelowMinimum (shrink routine exhausted). -/
inductive AllocError where
  | allocationFailed (code : Nat)
  | budgetExceeded
  | belowMinimum
deriving DecidableEq, Repr

/-- Modelled from the spec: the test/diagnostic allocation ceiling — the raw
OS primitive "behaves as though it refuses any request above the ceiling"
(set_test_vm_allocate_limit in the tests).  A raw environment is a predicate
saying whether a reservation of a given size is granted; a ceiling of c
grants exactly the sizes not above c. -/
def ceilingRaw (c : Nat) : Nat → Bool := fun size => size ≤ c

/-- Modelled from the spec: the retry loop of vmAllocateAllowLess
(section 4.3).  Attempt the raw allocation at the current candidate size; on
failure, stop with BelowMinimum if the next candidate (size - step) would
fall below the minimum, else retry at size - step.  The loop is written with
a fuel argument (the caller passes enough for the whole strictly decreasing
candidate range); alongside the result it returns the list of candidate
sizes for which the raw primitive was invoked, so that the number of OS
calls and the absence of side effects on failure can be stated. -/
def shrinkLoop (raw : Nat → Bool) (minimum step : Nat) :
    Nat → Nat → Except AllocError Nat × List Nat
  | 0, _ => (Except.error AllocError.belowMinimum, [])
  | Nat.succ fuel, size =>
    if raw size then
      (Except.ok size, [size])
    else if size - step < minimum then
      (Except.error AllocError.belowMinimum, [size])
    else
      let r := shrinkLoop raw minimum step fuel (size - step)
      (r.1, size :: r.2)

/-- Modelled from the spec: vmAllocateAllowLess(desired, minimum, step)
(section 4.3), with the raw OS allocate primitive passed in as a predicate.
Returns the granted size S (the address is abstracted away) or an error.
The fuel (desired - minimum) / step + 1 covers every candidate of the
strictly decreasing range. -/
def vmAllocateAllowLess (raw : Nat → Bool) (desired minimum step : Nat) :
    Except AllocError Nat :=
  (shrinkLoop raw minimum step ((desired - minimum) / step + 1) desired).1

/-- The candidate sizes for which vmAllocateAllowLess invoked the raw OS
primitive, in order: one entry per raw OS allocation call. -/
def vmAllocateCalls (raw : Nat → Bool) (desired minimum step : Nat) :
    List Nat :=
  (shrinkLoop raw minimum step ((desired - minimum) / step + 1) desired).2

/-- Modelled from the spec: the capability interface of section 4.1 — a
storage provider over a state type, with newStorage returning one
granule-sized handle or an error, and deleteStorage taking a possibly null
handle (none is the null pointer).  The advisory diagnostic name never
affects the outcome and is omitted. -/
structure Provider (σ : Type) where
  newStorage : σ → Except AllocError Nat × σ
  deleteStorage : σ → Option Nat → σ

/-- Modelled from the spec: the OS-backed provider (section 4.4) with no
test ceiling set — each newStorage call reserves one fresh granule, always
granted, at a nonzero granule-aligned address; deleteStorage records the
address handed back to the OS (so that "no OS release happened" is
statable) and treats null as a no-op per section 4.1. -/
structure MmapState where
  next : Nat
  released : List Nat
deriving DecidableEq, Repr

def mmapProvider : Provider MmapState where
  newStorage := fun s =>
    (Except.ok (GRANULE_SIZE * (s.next + 1)), ⟨s.next + 1, s.released⟩)
  deleteStorage := fun s h =>
    match h with
    | none => s
    | some p => ⟨s.next, p :: s.released⟩

/-- Modelled from the spec: the budget-enforcing decorator
LimitedStorageProvider (section 4.5).  State is (currentBytes, delegate
state).  newStorage fails with BudgetExceeded, delegate untouched, when
currentBytes + GRANULE_SIZE would exceed maxBytes; otherwise it forwards,
adding GRANULE_SIZE to currentBytes only on delegate success.
deleteStorage of null is a no-op; otherwise it forwards and subtracts
GRANULE_SIZE. -/
def LimitedStorageProvider {δ : Type} (D : Provider δ) (maxBytes : Nat) :
    Provider (Nat × δ) where
  newStorage := fun s =>
    if maxBytes < s.1 + GRANULE_SIZE then
      (Except.error AllocError.budgetExceeded, s)
    else
      match D.newStorage s.2 with
      | (Except.ok h, d2) => (Except.ok h, (s.1 + GRANULE_SIZE, d2))
      | (Except.error e, d2) => (Except.error e, (s.1, d2))
  deleteStorage := fun s h =>
    match h with
    | none => s
    | some p => (s.1 - GRANULE_SIZE, D.deleteStorage s.2 (some p))

/-- State of the success-counting decorator LogSuccessStorageProvider:
numAllocated, numDeleted and the delegate state. -/
structure LogSuccessState (δ : Type) where
  numAllocated : Nat
  numDeleted : Nat
  del : δ
deriving Repr

/-- Fresh success-counter state: both counters start at zero. -/
def LogSuccessState.init {δ : Type} (d0 : δ) : LogSuccessState δ :=
  ⟨0, 0, d0⟩

/-- numLive = numAllocated - numDeleted. -/
def LogSuccessState.numLive {δ : Type} (s : LogSuccessState δ) : Nat :=
  s.numAllocated - s.numDeleted

/-- Modelled from the spec: the success-counting decorator
LogSuccessStorageProvider (section 4.6).  On newStorage success it
increments numAllocated and forwards the handle; on failure it changes
nothing and propagates the error.  deleteStorage forwards; it increments
numDeleted only for a non-null handle, since release(null) is a safe no-op
at every layer (section 4.1). -/
def LogSuccessStorageProvider {δ : Type} (D : Provider δ) :
    Provider (LogSuccessState δ) where
  newStorage := fun s =>
    match D.newStorage s.del with
    | (Except.ok h, d2) =>
      (Except.ok h, ⟨s.numAllocated + 1, s.numDeleted, d2⟩)
    | (Except.error e, d2) =>
      (Except.error e, ⟨s.numAllocated, s.numDeleted, d2⟩)
  deleteStorage := fun s h =>
    match h with
    | none => ⟨s.numAllocated, s.numDeleted, D.deleteStorage s.del none⟩
    | some p =>
      ⟨s.numAllocated, s.numDeleted + 1, D.deleteStorage s.del (some p)⟩

/-- State of the failure-counting decorator LogFailStorageProvider:
numFailedAllocs and the delegate state. -/
structure LogFailState (δ : Type) where
  numFailedAllocs : Nat
  del : δ
deriving Repr

/-- Fresh failure-counter state: the counter starts at zero. -/
def LogFailState.init {δ : Type} (d0 : δ) : LogFailState δ :=
  ⟨0, d0⟩

/-- Modelled from the spec: the failure-counting decorator
LogFailStorageProvider (section 4.6).  On newStorage failure it increments
numFailedAllocs before propagating the error; the success path and
deleteStorage are pure pass-through. -/
def LogFailStorageProvider {δ : Type} (D : Provider δ) :
    Provider (LogFailState δ) where
  newStorage := fun s =>
    match D.newStorage s.del with
    | (Except.ok h, d2) => (Except.ok h, ⟨s.numFailedAllocs, d2⟩)
    | (Except.error e, d2) => (Except.error e, ⟨s.numFailedAllocs + 1, d2⟩)
  deleteStorage := fun s h =>
    ⟨s.numFailedAllocs, D.deleteStorage s.del h⟩

/-- A call made by a client of a provider chain: one allocation request, or
one release of a (possibly null) handle. -/
inductive ProviderOp where
  | alloc
  | release (h : Option Nat)
deriving DecidableEq, Repr

/-- Run a sequence of client calls against a provider, threading its
state. -/
def runOps {σ : Type} (P : Provider σ) : List ProviderOp → σ → σ
  | [], s => s
  | ProviderOp.alloc :: ops, s => runOps P ops (P.newStorage s).2
  | ProviderOp.release h :: ops, s => runOps P ops (P.deleteStorage s h)

/-- The number of allocate calls in the run that succeed. -/
def countOk {σ : Type} (P : Provider σ) : List ProviderOp → σ → Nat
  | [], _ => 0
  | ProviderOp.alloc :: ops, s =>
    match P.newStorage s with
    | (Except.ok _, s2) => countOk P ops s2 + 1
    | (Except.error _, s2) => countOk P ops s2
  | ProviderOp.release h :: ops, s => countOk P ops (P.deleteStorage s h)

/-- The number of allocate calls in the run that return an error. -/
def countErr {σ : Type} (P : Provider σ) : List ProviderOp → σ → Nat
  | [], _ => 0
  | ProviderOp.alloc :: ops, s =>
    match P.newStorage s with
    | (Except.ok _, s2) => countErr P ops s2
    | (Except.error _, s2) => countErr P ops s2 + 1
  | ProviderOp.release h :: ops, s => countErr P ops (P.deleteStorage s h)

/-- The number of release calls with a non-null handle in a call
sequence. -/
def countNonNullRelease : List ProviderOp → Nat
  | [] => 0
  | ProviderOp.release (some _) :: ops => countNonNullRelease ops + 1
  | _ :: ops => countNonNullRelease ops

/-- A provider whose newStorage never fails (the OS-backed provider under
no ceiling, as used by the budget-decorator tests). -/
def neverFails {σ : Type} (P : Provider σ) : Prop :=
  ∀ s, ∃ h s2, P.newStorage s = (Except.ok h, s2)

/-- Perform one allocation call and keep only the new state. -/
def allocStep {σ : Type} (P : Provider σ) (s : σ) : σ :=
  (P.newStorage s).2

/-- The state after n consecutive allocation calls. -/
def iterAlloc {σ : Type} (P : Provider σ) : Nat → σ → σ
  | 0, s => s
  | Nat.succ n, s => allocStep P (iterAlloc P n s)

/-- Round a byte count up to a whole number of granules. -/
def granuleRoundUp (x : Nat) : Nat :=
  ((x + GRANULE_SIZE - 1) / GRANULE_SIZE) * GRANULE_SIZE

/-- State of the pre-reserved arena provider: the base address of the single
backing reservation, its capacity in granule slots, the free-list of
released slice addresses, and the bump cursor into the unused portion. -/
structure ArenaState where
  base : Nat
  numSlots : Nat
  freeList : List Nat
  bump : Nat
deriving DecidableEq, Repr

/-- Modelled from the spec: arena allocation (section 4.7) — pop from the
free-list if non-empty, else take the next unused granule-sized slice at
the bump cursor, else fail with out-of-memory. -/
def ArenaState.newStorage (s : ArenaState) :
    Except AllocError Nat × ArenaState :=
  match s.freeList with
  | p :: rest => (Except.ok p, ⟨s.base, s.numSlots, rest, s.bump⟩)
  | [] =>
    if s.bump < s.numSlots then
      (Except.ok (s.base + s.bump * GRANULE_SIZE),
        ⟨s.base, s.numSlots, [], s.bump + 1⟩)
    else
      (Except.error (AllocError.allocationFailed 0), s)

/-- Modelled from the spec: arena release (section 4.7) — push the slice
back onto the free-list; memory is not returned to the OS.  Null is a safe
no-op per section 4.1. -/
def ArenaState.deleteStorage (s : ArenaState) (h : Option Nat) : ArenaState :=
  match h with
  | none => s
  | some p => ⟨s.base, s.numSlots, p :: s.freeList, s.bump⟩

/-- The arena provider as a capability-interface instance. -/
def arenaProvider : Provider ArenaState :=
  ⟨ArenaState.newStorage, ArenaState.deleteStorage⟩

/-- Modelled from the spec: StorageProvider::preAllocatedProvider(minAmount,
maxAmount, excessBytes) (section 4.7).  The total capacity covers the
requested range (its upper end maxAmount, itself rounded up to whole
granules) plus excessBytes rounded up to a whole number of granules, so a
request of zero committed granules plus a nonzero excess still yields at
least one granule.  One raw OS reservation is performed for that total
(reserve returns the base address, or none on refusal); construction fails
exactly when that single reservation fails. -/
def preAllocatedProvider (reserve : Nat → Option Nat)
    (minAmount maxAmount excessBytes : Nat) : Except AllocError ArenaState :=
  let total := granuleRoundUp maxAmount + granuleRoundUp excessBytes
  match reserve total with
  | none => Except.error (AllocError.allocationFailed 0)
  | some b => Except.ok ⟨b, total / GRANULE_SIZE, [], 0⟩

/-! ## Lemmas about the shrink-on-failure loop -/

theorem shrinkLoop_ok_bounds (raw : Nat → Bool) (minimum step : Nat) :
    ∀ fuel size S, minimum ≤ size →
      (shrinkLoop raw minimum step fuel size).1 = Except.ok S →
      minimum ≤ S ∧ S ≤ size := by
  intro fuel
  induction fuel with
  | zero =>
    intro size S hms h
    simp [shrinkLoop] at h
  | succ fuel ih =>
    intro size S hms h
    by_cases hr : raw size
    · simp [shrinkLoop, hr] at h
      exact h ▸ ⟨hms, Nat.le_refl size⟩
    · by_cases hb : size - step < minimum
      · simp [shrinkLoop, hr, hb] at h
      · simp only [shrinkLoop, hr, hb, if_false, if_neg, Bool.false_eq_true,
          if_neg hb] at h
        have hms2 : minimum ≤ size - step := Nat.le_of_not_lt hb
        obtain ⟨h1, h2⟩ := ih (size - step) S hms2 h
        exact ⟨h1, Nat.le_trans h2 (Nat.sub_le size step)⟩

theorem shrinkLoop_allFail (raw : Nat → Bool) (minimum step : Nat)
    (hall : ∀ s, minimum ≤ s → raw s = false) :
    ∀ fuel size, minimum ≤ size →
      (shrinkLoop raw minimum step fuel size).1
        = Except.error AllocError.belowMinimum := by
  intro fuel
  induction fuel with
  | zero => intro size hms; simp [shrinkLoop]
  | succ fuel ih =>
    intro size hms
    have hr : raw size = false := hall size hms
    by_cases hb : size - step < minimum
    · simp [shrinkLoop, hr, hb]
    · simp only [shrinkLoop, hr, Bool.false_eq_true, if_false, if_neg hb]
      exact ih (size - step) (Nat.le_of_not_lt hb)

theorem shrinkLoop_err_calls (raw : Nat → Bool) (minimum step : Nat) :
    ∀ fuel size e,
      (shrinkLoop raw minimum step fuel size).1 = Except.error e →
      ∀ s ∈ (shrinkLoop raw minimum step fuel size).2, raw s = false := by
  intro fuel
  induction fuel with
  | zero => intro size e _h s hs; simp [shrinkLoop] at hs
  | succ fuel ih =>
    intro size e h s hs
    by_cases hr : raw size
    · simp [shrinkLoop, hr] at h
    · have hrf : raw size = false := Bool.eq_false_iff.mpr hr
      by_cases hb : size - step < minimum
      · simp [shrinkLoop, hrf, hb] at hs
        exact hs ▸ hrf
      · simp only [shrinkLoop, hrf, Bool.false_eq_true, if_false,
          if_neg hb] at h hs
        rcases List.mem_cons.1 hs with hs | hs
        · exact hs ▸ hrf
        · exact ih (size - step) e h s hs

theorem shrinkLoop_calls_length (raw : Nat → Bool) (minimum step : Nat) :
    ∀ fuel size, (shrinkLoop raw minimum step fuel size).2.length ≤ fuel := by
  intro fuel
  induction fuel with
  | zero => intro size; simp [shrinkLoop]
  | succ fuel ih =>
    intro size
    by_cases hr : raw size
    · simp [shrinkLoop, hr]
    · by_cases hb : size - step < minimum
      · simp [shrinkLoop, hr, hb]
      · simp only [shrinkLoop, hr, Bool.false_eq_true, if_false, if_neg hb,
          List.length_cons]
        exact Nat.succ_le_succ (ih (size - step))

theorem shrinkLoop_calls_le (raw : Nat → Bool) (minimum step : Nat) :
    ∀ fuel size, ∀ s ∈ (shrinkLoop raw minimum step fuel size).2, s ≤ size := by
  intro fuel
  induction fuel with
  | zero => intro size s hs; simp [shrinkLoop] at hs
  | succ fuel ih =>
    intro size s hs
    by_cases hr : raw size
    · simp [shrinkLoop, hr] at hs
      exact hs ▸ Nat.le_refl size
    · by_cases hb : size - step < minimum
      · simp [shrinkLoop, hr, hb] at hs
        exact hs ▸ Nat.le_refl size
      · simp only [shrinkLoop, hr, Bool.false_eq_true, if_false,
          if_neg hb] at hs
        rcases List.mem_cons.1 hs with hs | hs
        · exact hs ▸ Nat.le_refl size
        · exact Nat.le_trans (ih (size - step) s hs) (Nat.sub_le size step)

theorem shrinkLoop_calls_decreasing (raw : Nat → Bool) (minimum step : Nat)
    (hmin : 0 < minimum) (hstep : 0 < step) :
    ∀ fuel size,
      List.Pairwise (fun a b => b < a) (shrinkLoop raw minimum step fuel size).2 := by
  intro fuel
  induction fuel with
  | zero => intro size; simp [shrinkLoop]
  | succ fuel ih =>
    intro size
    by_cases hr : raw size
    · simp [shrinkLoop, hr]
    · by_cases hb : size - step < minimum
      · simp [shrinkLoop, hr, hb]
      · simp only [shrinkLoop, hr, Bool.false_eq_true, if_false, if_neg hb,
          List.pairwise_cons]
        have hsz : size - step < size := by
          have h1 : 0 < size := by
            have := Nat.le_of_not_lt hb
            omega
          omega
        refine ⟨fun s hs => ?_, ih (size - step)⟩
        exact Nat.lt_of_le_of_lt (shrinkLoop_calls_le raw minimum step fuel
          (size - step) s hs) hsz

theorem shrinkLoop_congr (raw1 raw2 : Nat → Bool) (minimum step : Nat)
    (hraw : ∀ s, raw1 s = raw2 s) :
    ∀ fuel size,
      shrinkLoop raw1 minimum step fuel size
        = shrinkLoop raw2 minimum step fuel size := by
  intro fuel
  induction fuel with
  | zero => intro size; rfl
  | succ fuel ih =>
    intro size
    simp only [shrinkLoop, hraw size, ih (size - step)]

/-- C1: if tryAllocateShrinking (vmAllocateAllowLess) succeeds with size S
then minimum ≤ S ≤ desired; under a 16MB ceiling, (8MB, 1MB, 1MB) succeeds
with exactly 8MB; under a 40MB ceiling, (100MB, 25MB, 1MB) succeeds with
25MB ≤ S ≤ 40MB. -/
theorem vmAllocateAllowLess_success_in_range :
    (∀ (raw : Nat → Bool) (desired minimum step S : Nat),
        0 < minimum → minimum ≤ desired → 0 < step →
        vmAllocateAllowLess raw desired minimum step = Except.ok S →
        minimum ≤ S ∧ S ≤ desired)
    ∧ vmAllocateAllowLess (ceilingRaw (16 * MB)) (8 * MB) (1 * MB) (1 * MB)
        = Except.ok (8 * MB)
    ∧ (∃ S, vmAllocateAllowLess (ceilingRaw (40 * MB)) (100 * MB) (25 * MB)
          (1 * MB) = Except.ok S ∧ 25 * MB ≤ S ∧ S ≤ 40 * MB) := by
  refine ⟨?_, ?_, ⟨40 * MB, ?_, ?_, ?_⟩⟩
  · intro raw desired minimum step S _hm hds _hs h
    exact shrinkLoop_ok_bounds raw minimum step _ desired S hds h
  · rfl
  · rfl
  · decide
  · decide

/-- Witness for C1 at the first concrete test: the general bound applied to
the 16MB-ceiling run, whose success is the theorem's own second conjunct. -/
theorem vmAllocateAllowLess_success_in_range_witness :
    1 * MB ≤ 8 * MB ∧ 8 * MB ≤ 8 * MB :=
  vmAllocateAllowLess_success_in_range.1 (ceilingRaw (16 * MB)) (8 * MB)
    (1 * MB) (1 * MB) (8 * MB) (by decide) (by decide) (by decide)
    vmAllocateAllowLess_success_in_range.2.1

/-- C2: if every candidate size down to minimum is refused, the routine
fails with the out-of-memory (BelowMinimum) error; whenever it fails, every
raw OS call it made was refused, so no allocation was performed; under a
5MB ceiling, (100MB, 10MB, 1MB) fails and every call it made was refused. -/
theorem vmAllocateAllowLess_all_refused_fails :
    (∀ (raw : Nat → Bool) (desired minimum step : Nat),
        minimum ≤ desired →
        (∀ s, minimum ≤ s → raw s = false) →
        vmAllocateAllowLess raw desired minimum step
          = Except.error AllocError.belowMinimum)
    ∧ (∀ (raw : Nat → Bool) (desired minimum step : Nat) (e : AllocError),
        vmAllocateAllowLess raw desired minimum step = Except.error e →
        ∀ s ∈ vmAllocateCalls raw desired minimum step, raw s = false)
    ∧ vmAllocateAllowLess (ceilingRaw (5 * MB)) (100 * MB) (10 * MB) (1 * MB)
        = Except.error AllocError.belowMinimum
    ∧ (∀ s ∈ vmAllocateCalls (ceilingRaw (5 * MB)) (100 * MB) (10 * MB)
          (1 * MB), ceilingRaw (5 * MB) s = false) := by
  refine ⟨?_, ?_, ?_, ?_⟩
  · intro raw desired minimum step hds hall
    exact shrinkLoop_allFail raw minimum step hall _ desired hds
  · intro raw desired minimum step e h s hs
    exact shrinkLoop_err_calls raw minimum step _ desired e h s hs
  · rfl
  · decide

/-- Witness for C2: the all-refused hypothesis discharged at a concrete
always-failing environment. -/
theorem vmAllocateAllowLess_all_refused_fails_witness :
    vmAllocateAllowLess (fun _ => false) 2 1 1
      = Except.error AllocError.belowMinimum :=
  vmAllocateAllowLess_all_refused_fails.1 (fun _ => false) 2 1 1 (by decide)
    (fun _s _hs => rfl)

/-- C9: the routine makes at most ceil((desired - minimum)/step) + 1 raw OS
calls, its candidate sizes strictly decrease, and it is deterministic: two
runs against extensionally equal environments give the same result. -/
theorem vmAllocateAllowLess_bounded_deterministic :
    (∀ (raw : Nat → Bool) (desired minimum step : Nat),
        (vmAllocateCalls raw desired minimum step).length
          ≤ (desired - minimum + (step - 1)) / step + 1)
    ∧ (∀ (raw : Nat → Bool) (desired minimum step : Nat),
        0 < minimum → 0 < step →
        List.Pairwise (fun a b => b < a)
          (vmAllocateCalls raw desired minimum step))
    ∧ (∀ (raw1 raw2 : Nat → Bool) (desired minimum step : Nat),
        (∀ s, raw1 s = raw2 s) →
        vmAllocateAllowLess raw1 desired minimum step
          = vmAllocateAllowLess raw2 desired minimum step) := by
  refine ⟨?_, ?_, ?_⟩
  · intro raw desired minimum step
    refine Nat.le_trans (shrinkLoop_calls_length raw minimum step _ desired) ?_
    have hfl : (desired - minimum) / step ≤ (desired - minimum + (step - 1)) / step :=
      Nat.div_le_div_right (Nat.le_add_right _ _)
    omega
  · intro raw desired minimum step hm hs
    exact shrinkLoop_calls_decreasing raw minimum step hm hs _ desired
  · intro raw1 raw2 desired minimum step hraw
    unfold vmAllocateAllowLess
    rw [shrinkLoop_congr raw1 raw2 minimum step hraw]

/-- Witness for C9: determinism and the strict-decrease hypotheses
discharged at a concrete environment. -/
theorem vmAllocateAllowLess_bounded_deterministic_witness :
    vmAllocateAllowLess (ceilingRaw (5 * MB)) (8 * MB) MB MB
        = vmAllocateAllowLess (fun s => s ≤ 5 * MB) (8 * MB) MB MB
    ∧ List.Pairwise (fun a b => b < a)
        (vmAllocateCalls (ceilingRaw (5 * MB)) (8 * MB) MB MB) :=
  ⟨vmAllocateAllowLess_bounded_deterministic.2.2 (ceilingRaw (5 * MB))
      (fun s => s ≤ 5 * MB) (8 * MB) MB MB (fun _s => rfl),
    vmAllocateAllowLess_bounded_deterministic.2.1 (ceilingRaw (5 * MB))
      (8 * MB) MB MB (by decide) (by decide)⟩

/-! ## Lemmas about running call sequences through a provider -/

theorem runOps_append {σ : Type} (P : Provider σ) :
    ∀ l1 l2 s, runOps P (l1 ++ l2) s = runOps P l2 (runOps P l1 s) := by
  intro l1
  induction l1 with
  | nil => intro l2 s; rfl
  | cons op l1 ih =>
    intro l2 s
    cases op with
    | alloc => simpa [runOps] using ih l2 (allocStep P s)
    | release h => simpa [runOps] using ih l2 (P.deleteStorage s h)

theorem countOk_append {σ : Type} (P : Provider σ) :
    ∀ l1 l2 s, countOk P (l1 ++ l2) s
      = countOk P l1 s + countOk P l2 (runOps P l1 s) := by
  intro l1
  induction l1 with
  | nil => intro l2 s; simp [countOk, runOps]
  | cons op l1 ih =>
    intro l2 s
    cases op with
    | alloc =>
      rcases hs : P.newStorage s with ⟨r, s2⟩
      cases r with
      | ok h => simp [countOk, runOps, allocStep, hs, ih l2 s2]; omega
      | error e => simp [countOk, runOps, allocStep, hs, ih l2 s2]
    | release h =>
      simpa [countOk, runOps] using ih l2 (P.deleteStorage s h)

theorem countErr_append {σ : Type} (P : Provider σ) :
    ∀ l1 l2 s, countErr P (l1 ++ l2) s
      = countErr P l1 s + countErr P l2 (runOps P l1 s) := by
  intro l1
  induction l1 with
  | nil => intro l2 s; simp [countErr, runOps]
  | cons op l1 ih =>
    intro l2 s
    cases op with
    | alloc =>
      rcases hs : P.newStorage s with ⟨r, s2⟩
      cases r with
      | ok h => simp [countErr, runOps, allocStep, hs, ih l2 s2]
      | error e => simp [countErr, runOps, allocStep, hs, ih l2 s2]; omega
    | release h =>
      simpa [countErr, runOps] using ih l2 (P.deleteStorage s h)

theorem countNonNullRelease_append :
    ∀ l1 l2, countNonNullRelease (l1 ++ l2)
      = countNonNullRelease l1 + countNonNullRelease l2 := by
  intro l1
  induction l1 with
  | nil => intro l2; simp [countNonNullRelease]
  | cons op l1 ih =>
    intro l2
    cases op with
    | alloc => simpa [countNonNullRelease] using ih l2
    | release h =>
      cases h with
      | none => simpa [countNonNullRelease] using ih l2
      | some p => simp [countNonNullRelease, ih l2]; omega

/-! ## The success-counting decorator -/

theorem logSuccess_alloc_ok {δ : Type} (D : Provider δ)
    (s : LogSuccessState δ) (h : Nat) (d2 : δ)
    (hd : D.newStorage s.del = (Except.ok h, d2)) :
    (LogSuccessStorageProvider D).newStorage s
      = (Except.ok h, ⟨s.numAllocated + 1, s.numDeleted, d2⟩) := by
  simp [LogSuccessStorageProvider, hd]

theorem logSuccess_alloc_err {δ : Type} (D : Provider δ)
    (s : LogSuccessState δ) (e : AllocError) (d2 : δ)
    (hd : D.newStorage s.del = (Except.error e, d2)) :
    (LogSuccessStorageProvider D).newStorage s
      = (Except.error e, ⟨s.numAllocated, s.numDeleted, d2⟩) := by
  simp [LogSuccessStorageProvider, hd]

theorem logSuccess_run {δ : Type} (D : Provider δ) :
    ∀ (ops : List ProviderOp) (s : LogSuccessState δ),
      (runOps (LogSuccessStorageProvider D) ops s).numAllocated
        = s.numAllocated + countOk (LogSuccessStorageProvider D) ops s
      ∧ (runOps (LogSuccessStorageProvider D) ops s).numDeleted
        = s.numDeleted + countNonNullRelease ops := by
  intro ops
  induction ops with
  | nil => intro s; simp [runOps, countOk, countNonNullRelease]
  | cons op ops ih =>
    intro s
    cases op with
    | alloc =>
      rcases hd : D.newStorage s.del with ⟨r, d2⟩
      cases r with
      | ok h =>
        have hnew := logSuccess_alloc_ok D s h d2 hd
        obtain ⟨ih1, ih2⟩ := ih ⟨s.numAllocated + 1, s.numDeleted, d2⟩
        simp only [runOps, countOk, allocStep, hnew, countNonNullRelease] at ih1 ih2 ⊢
        exact ⟨by omega, by omega⟩
      | error e =>
        have hnew := logSuccess_alloc_err D s e d2 hd
        obtain ⟨ih1, ih2⟩ := ih ⟨s.numAllocated, s.numDeleted, d2⟩
        simp only [runOps, countOk, allocStep, hnew, countNonNullRelease] at ih1 ih2 ⊢
        exact ⟨by omega, by omega⟩
    | release h =>
      cases h with
      | none =>
        obtain ⟨ih1, ih2⟩ :=
          ih ⟨s.numAllocated, s.numDeleted, D.deleteStorage s.del none⟩
        simp only [runOps, countOk, countNonNullRelease,
          LogSuccessStorageProvider] at ih1 ih2 ⊢
        exact ⟨by omega, by omega⟩
      | some p =>
        obtain ⟨ih1, ih2⟩ :=
          ih ⟨s.numAllocated, s.numDeleted + 1, D.deleteStorage s.del (some p)⟩
        simp only [runOps, countOk, countNonNullRelease,
          LogSuccessStorageProvider] at ih1 ih2 ⊢
        exact ⟨by omega, by omega⟩

/-- C5: through the success-counting decorator, numAllocated equals the
number of successful allocate calls, numDeleted equals the number of
non-null release calls, numLive is their difference, the counters are
monotone along prefixes of the run, numLive stays non-negative whenever the
caller contract (releases never outnumber successful allocations) holds,
and each single call behaves as specified: a successful allocate increments
numAllocated and forwards the delegate's handle, a failed allocate changes
no counter and propagates the delegate's error, and a non-null release
increments numDeleted and forwards. -/
theorem logSuccess_counters_spec {δ : Type} (D : Provider δ)
    (ops : List ProviderOp) (d0 : δ) :
    (runOps (LogSuccessStorageProvider D) ops
        (LogSuccessState.init d0)).numAllocated
      = countOk (LogSuccessStorageProvider D) ops (LogSuccessState.init d0)
    ∧ (runOps (LogSuccessStorageProvider D) ops
        (LogSuccessState.init d0)).numDeleted
      = countNonNullRelease ops
    ∧ (runOps (LogSuccessStorageProvider D) ops
        (LogSuccessState.init d0)).numLive
      = countOk (LogSuccessStorageProvider D) ops (LogSuccessState.init d0)
        - countNonNullRelease ops
    ∧ (∀ n : Nat,
        (runOps (LogSuccessStorageProvider D) (List.take n ops)
            (LogSuccessState.init d0)).numAllocated
          ≤ (runOps (LogSuccessStorageProvider D) ops
              (LogSuccessState.init d0)).numAllocated
        ∧ (runOps (LogSuccessStorageProvider D) (List.take n ops)
            (LogSuccessState.init d0)).numDeleted
          ≤ (runOps (LogSuccessStorageProvider D) ops
              (LogSuccessState.init d0)).numDeleted)
    ∧ (countNonNullRelease ops
        ≤ countOk (LogSuccessStorageProvider D) ops (LogSuccessState.init d0) →
        (runOps (LogSuccessStorageProvider D) ops
            (LogSuccessState.init d0)).numDeleted
          ≤ (runOps (LogSuccessStorageProvider D) ops
              (LogSuccessState.init d0)).numAllocated)
    ∧ (∀ (s : LogSuccessState δ) (h : Nat) (d2 : δ),
        D.newStorage s.del = (Except.ok h, d2) →
        (LogSuccessStorageProvider D).newStorage s
          = (Except.ok h, ⟨s.numAllocated + 1, s.numDeleted, d2⟩))
    ∧ (∀ (s : LogSuccessState δ) (e : AllocError) (d2 : δ),
        D.newStorage s.del = (Except.error e, d2) →
        (LogSuccessStorageProvider D).newStorage s
          = (Except.error e, ⟨s.numAllocated, s.numDeleted, d2⟩))
    ∧ (∀ (s : LogSuccessState δ) (p : Nat),
        (LogSuccessStorageProvider D).deleteStorage s (some p)
          = ⟨s.numAllocated, s.numDeleted + 1, D.deleteStorage s.del (some p)⟩) := by
  obtain ⟨h1, h2⟩ := logSuccess_run D ops (LogSuccessState.init d0)
  have h1s : (runOps (LogSuccessStorageProvider D) ops
      (LogSuccessState.init d0)).numAllocated
      = countOk (LogSuccessStorageProvider D) ops (LogSuccessState.init d0) := by
    simpa [LogSuccessState.init] using h1
  have h2s : (runOps (LogSuccessStorageProvider D) ops
      (LogSuccessState.init d0)).numDeleted = countNonNullRelease ops := by
    simpa [LogSuccessState.init] using h2
  refine ⟨h1s, h2s, ?_, ?_, ?_, ?_, ?_, ?_⟩
  · simp [LogSuccessState.numLive, h1s, h2s]
  · intro n
    have hsplit : ops = List.take n ops ++ List.drop n ops :=
      (List.take_append_drop n ops).symm
    obtain ⟨g1, g2⟩ :=
      logSuccess_run D (List.take n ops) (LogSuccessState.init d0)
    have hOk : countOk (LogSuccessStorageProvider D) ops
        (LogSuccessState.init d0)
        = countOk (LogSuccessStorageProvider D) (List.take n ops)
            (LogSuccessState.init d0)
          + countOk (LogSuccessStorageProvider D) (List.drop n ops)
              (runOps (LogSuccessStorageProvider D) (List.take n ops)
                (LogSuccessState.init d0)) := by
      conv_lhs => rw [hsplit]
      exact countOk_append (LogSuccessStorageProvider D) _ _ _
    have hRel : countNonNullRelease ops
        = countNonNullRelease (List.take n ops)
          + countNonNullRelease (List.drop n ops) := by
      conv_lhs => rw [hsplit]
      exact countNonNullRelease_append _ _
    constructor
    · omega
    · omega
  · intro hcon; omega
  · exact fun s h d2 hd => logSuccess_alloc_ok D s h d2 hd
  · exact fun s e d2 hd => logSuccess_alloc_err D s e d2 hd
  · intro s p; rfl

/-- Witness for C5: the caller-contract hypothesis and the single-step
hypotheses discharged at the OS-backed model with an empty call
sequence and a one-allocation run. -/
theorem logSuccess_counters_spec_witness :
    (runOps (LogSuccessStorageProvider mmapProvider) [ProviderOp.alloc]
        (LogSuccessState.init ⟨0, []⟩)).numDeleted
      ≤ (runOps (LogSuccessStorageProvider mmapProvider) [ProviderOp.alloc]
          (LogSuccessState.init ⟨0, []⟩)).numAllocated
    ∧ (LogSuccessStorageProvider mmapProvider).newStorage
        (LogSuccessState.init ⟨0, []⟩)
      = (Except.ok (GRANULE_SIZE * 1), ⟨1, 0, ⟨1, []⟩⟩) :=
  ⟨(logSuccess_counters_spec mmapProvider [ProviderOp.alloc]
      ⟨0, []⟩).2.2.2.2.1 (by decide),
    (logSuccess_counters_spec mmapProvider [ProviderOp.alloc]
      ⟨0, []⟩).2.2.2.2.2.1 (LogSuccessState.init ⟨0, []⟩)
      (GRANULE_SIZE * 1) ⟨1, []⟩ rfl⟩

/-! ## The failure-counting decorator -/

theorem logFail_alloc_ok {δ : Type} (D : Provider δ)
    (s : LogFailState δ) (h : Nat) (d2 : δ)
    (hd : D.newStorage s.del = (Except.ok h, d2)) :
    (LogFailStorageProvider D).newStorage s
      = (Except.ok h, ⟨s.numFailedAllocs, d2⟩) := by
  simp [LogFailStorageProvider, hd]

theorem logFail_alloc_err {δ : Type} (D : Provider δ)
    (s : LogFailState δ) (e : AllocError) (d2 : δ)
    (hd : D.newStorage s.del = (Except.error e, d2)) :
    (LogFailStorageProvider D).newStorage s
      = (Except.error e, ⟨s.numFailedAllocs + 1, d2⟩) := by
  simp [LogFailStorageProvider, hd]

theorem logFail_run {δ : Type} (D : Provider δ) :
    ∀ (ops : List ProviderOp) (s : LogFailState δ),
      (runOps (LogFailStorageProvider D) ops s).numFailedAllocs
        = s.numFailedAllocs + countErr (LogFailStorageProvider D) ops s := by
  intro ops
  induction ops with
  | nil => intro s; simp [runOps, countErr]
  | cons op ops ih =>
    intro s
    cases op with
    | alloc =>
      rcases hd : D.newStorage s.del with ⟨r, d2⟩
      cases r with
      | ok h =>
        have hnew := logFail_alloc_ok D s h d2 hd
        have ih1 := ih ⟨s.numFailedAllocs, d2⟩
        simp only [runOps, countErr, allocStep, hnew] at ih1 ⊢
        omega
      | error e =>
        have hnew := logFail_alloc_err D s e d2 hd
        have ih1 := ih ⟨s.numFailedAllocs + 1, d2⟩
        simp only [runOps, countErr, allocStep, hnew] at ih1 ⊢
        omega
    | release h =>
      have ih1 := ih ⟨s.numFailedAllocs, D.deleteStorage s.del h⟩
      simp only [runOps, countErr, LogFailStorageProvider] at ih1 ⊢
      omega

/-- C6: through the failure-counting decorator, over any interleaving of
successes and failures, numFailedAllocs equals exactly the number of
allocate calls that returned an error; a successful allocate and every
release are pure pass-through (the delegate's result is forwarded
unchanged and no counter changes on the success and release paths), and a
failed allocate increments numFailedAllocs before propagating the
delegate's error unchanged. -/
theorem logFail_counters_spec {δ : Type} (D : Provider δ)
    (ops : List ProviderOp) (d0 : δ) :
    (runOps (LogFailStorageProvider D) ops
        (LogFailState.init d0)).numFailedAllocs
      = countErr (LogFailStorageProvider D) ops (LogFailState.init d0)
    ∧ (∀ s : LogFailState δ,
        ((LogFailStorageProvider D).newStorage s).1 = (D.newStorage s.del).1)
    ∧ (∀ (s : LogFailState δ) (h : Nat) (d2 : δ),
        D.newStorage s.del = (Except.ok h, d2) →
        (LogFailStorageProvider D).newStorage s
          = (Except.ok h, ⟨s.numFailedAllocs, d2⟩))
    ∧ (∀ (s : LogFailState δ) (e : AllocError) (d2 : δ),
        D.newStorage s.del = (Except.error e, d2) →
        (LogFailStorageProvider D).newStorage s
          = (Except.error e, ⟨s.numFailedAllocs + 1, d2⟩))
    ∧ (∀ (s : LogFailState δ) (h : Option Nat),
        (LogFailStorageProvider D).deleteStorage s h
          = ⟨s.numFailedAllocs, D.deleteStorage s.del h⟩) := by
  refine ⟨?_, ?_, ?_, ?_, ?_⟩
  · simpa [LogFailState.init] using logFail_run D ops (LogFailState.init d0)
  · intro s
    rcases hd : D.newStorage s.del with ⟨r, d2⟩
    cases r with
    | ok h => simp [logFail_alloc_ok D s h d2 hd]
    | error e => simp [logFail_alloc_err D s e d2 hd]
  · exact fun s h d2 hd => logFail_alloc_ok D s h d2 hd
  · exact fun s e d2 hd => logFail_alloc_err D s e d2 hd
  · intro s h; rfl

/-- Witness for C6: the single-step hypotheses discharged at the OS-backed
model. -/
theorem logFail_counters_spec_witness :
    (LogFailStorageProvider mmapProvider).newStorage (LogFailState.init ⟨0, []⟩)
      = (Except.ok (GRANULE_SIZE * 1), ⟨0, ⟨1, []⟩⟩) :=
  (logFail_counters_spec mmapProvider [] ⟨0, []⟩).2.2.1
    (LogFailState.init ⟨0, []⟩) (GRANULE_SIZE * 1) ⟨1, []⟩ rfl

/-! ## The budget-enforcing decorator -/

theorem GRANULE_SIZE_pos : 0 < GRANULE_SIZE := by decide

theorem mmap_neverFails : neverFails mmapProvider :=
  fun s => ⟨GRANULE_SIZE * (s.next + 1), ⟨s.next + 1, s.released⟩, rfl⟩

theorem limited_alloc_reject {δ : Type} (D : Provider δ) (maxBytes cur : Nat)
    (d : δ) (hgt : maxBytes < cur + GRANULE_SIZE) :
    (LimitedStorageProvider D maxBytes).newStorage (cur, d)
      = (Except.error AllocError.budgetExceeded, (cur, d)) := by
  simp [LimitedStorageProvider, hgt]

theorem limited_alloc_ok {δ : Type} (D : Provider δ) (maxBytes cur : Nat)
    (d : δ) (hle : cur + GRANULE_SIZE ≤ maxBytes) (h : Nat) (d2 : δ)
    (hd : D.newStorage d = (Except.ok h, d2)) :
    (LimitedStorageProvider D maxBytes).newStorage (cur, d)
      = (Except.ok h, (cur + GRANULE_SIZE, d2)) := by
  simp [LimitedStorageProvider, Nat.not_lt.mpr hle, hd]

theorem limited_alloc_err {δ : Type} (D : Provider δ) (maxBytes cur : Nat)
    (d : δ) (hle : cur + GRANULE_SIZE ≤ maxBytes) (e : AllocError) (d2 : δ)
    (hd : D.newStorage d = (Except.error e, d2)) :
    (LimitedStorageProvider D maxBytes).newStorage (cur, d)
      = (Except.error e, (cur, d2)) := by
  simp [LimitedStorageProvider, Nat.not_lt.mpr hle, hd]

/-- C4: the budget decorator's allocate: when currentBytes + GRANULE_SIZE
exceeds maxBytes it fails with BudgetExceeded, leaving its whole state
(currentBytes and delegate state) unchanged, and the outcome is the same
for every delegate — the delegate is never invoked; otherwise it invokes
the delegate, adds GRANULE_SIZE to currentBytes only on delegate success,
and on delegate failure propagates the delegate's error unchanged with
currentBytes untouched. -/
theorem limited_alloc_cases {δ : Type} (D : Provider δ) (maxBytes cur : Nat)
    (d : δ) :
    (maxBytes < cur + GRANULE_SIZE →
      (LimitedStorageProvider D maxBytes).newStorage (cur, d)
        = (Except.error AllocError.budgetExceeded, (cur, d))
      ∧ ∀ (δ2 : Type) (D2 : Provider δ2) (d2 : δ2),
          (LimitedStorageProvider D2 maxBytes).newStorage (cur, d2)
            = (Except.error AllocError.budgetExceeded, (cur, d2)))
    ∧ (cur + GRANULE_SIZE ≤ maxBytes →
      (∀ (h : Nat) (d2 : δ), D.newStorage d = (Except.ok h, d2) →
        (LimitedStorageProvider D maxBytes).newStorage (cur, d)
          = (Except.ok h, (cur + GRANULE_SIZE, d2)))
      ∧ (∀ (e : AllocError) (d2 : δ), D.newStorage d = (Except.error e, d2) →
        (LimitedStorageProvider D maxBytes).newStorage (cur, d)
          = (Except.error e, (cur, d2)))) := by
  constructor
  · intro hgt
    exact ⟨limited_alloc_reject D maxBytes cur d hgt,
      fun δ2 D2 d2 => limited_alloc_reject D2 maxBytes cur d2 hgt⟩
  · intro hle
    exact ⟨fun h d2 hd => limited_alloc_ok D maxBytes cur d hle h d2 hd,
      fun e d2 hd => limited_alloc_err D maxBytes cur d hle e d2 hd⟩

/-- Witness for C4: both branches exercised over the OS-backed model, with
maxBytes respectively zero and one granule. -/
theorem limited_alloc_cases_witness :
    (LimitedStorageProvider mmapProvider 0).newStorage (0, (⟨0, []⟩ : MmapState))
      = (Except.error AllocError.budgetExceeded, (0, (⟨0, []⟩ : MmapState)))
    ∧ (LimitedStorageProvider mmapProvider GRANULE_SIZE).newStorage
        (0, (⟨0, []⟩ : MmapState))
      = (Except.ok (GRANULE_SIZE * 1), (0 + GRANULE_SIZE, (⟨1, []⟩ : MmapState))) :=
  ⟨((limited_alloc_cases mmapProvider 0 0 ⟨0, []⟩).1 (by decide)).1,
    ((limited_alloc_cases mmapProvider GRANULE_SIZE 0 ⟨0, []⟩).2
      (by decide)).1 (GRANULE_SIZE * 1) ⟨1, []⟩ rfl⟩

theorem iterAlloc_step_comm {σ : Type} (P : Provider σ) :
    ∀ (n : Nat) (s : σ),
      iterAlloc P n (allocStep P s) = allocStep P (iterAlloc P n s) := by
  intro n
  induction n with
  | zero => intro s; rfl
  | succ n ih => intro s; simp [iterAlloc, ih]

theorem runOps_replicate_alloc {σ : Type} (P : Provider σ) :
    ∀ (n : Nat) (s : σ),
      runOps P (List.replicate n ProviderOp.alloc) s = iterAlloc P n s := by
  intro n
  induction n with
  | zero => intro s; rfl
  | succ n ih =>
    intro s
    rw [List.replicate_succ]
    show runOps P (List.replicate n ProviderOp.alloc) (allocStep P s)
      = iterAlloc P (n + 1) s
    rw [ih (allocStep P s), iterAlloc_step_comm]
    rfl

theorem countOk_replicate_alloc {σ : Type} (P : Provider σ) :
    ∀ (n : Nat) (s : σ),
      (∀ j, j < n → ∃ h, (P.newStorage (iterAlloc P j s)).1 = Except.ok h) →
      countOk P (List.replicate n ProviderOp.alloc) s = n := by
  intro n
  induction n with
  | zero => intro s _; rfl
  | succ n ih =>
    intro s hok
    obtain ⟨h0, hs0⟩ := hok 0 (Nat.succ_pos n)
    have hs0x : (P.newStorage s).1 = Except.ok h0 := hs0
    rcases hs : P.newStorage s with ⟨r, s2⟩
    have hr : r = Except.ok h0 := by
      rw [hs] at hs0x
      exact hs0x
    subst hr
    have hs2 : s2 = allocStep P s := by simp [allocStep, hs]
    subst hs2
    have hrest : ∀ j, j < n →
        ∃ h, (P.newStorage (iterAlloc P j (allocStep P s))).1 = Except.ok h := by
      intro j hj
      rw [iterAlloc_step_comm]
      exact hok (j + 1) (Nat.succ_lt_succ hj)
    simp only [List.replicate_succ, countOk, hs, ih (allocStep P s) hrest]

theorem limited_iterAlloc {δ : Type} (D : Provider δ) (hD : neverFails D)
    (k : Nat) (d0 : δ) :
    ∀ i, i ≤ k →
      ∃ d, iterAlloc (LimitedStorageProvider D (k * GRANULE_SIZE)) i (0, d0)
        = (i * GRANULE_SIZE, d) := by
  intro i
  induction i with
  | zero => intro _; exact ⟨d0, rfl⟩
  | succ i ih =>
    intro hik
    obtain ⟨d, hd⟩ := ih (Nat.le_of_succ_le hik)
    obtain ⟨h, d2, hnew⟩ := hD d
    have hle : i * GRANULE_SIZE + GRANULE_SIZE ≤ k * GRANULE_SIZE := by
      have h2 : (i + 1) * GRANULE_SIZE ≤ k * GRANULE_SIZE :=
        Nat.mul_le_mul_right GRANULE_SIZE hik
      rwa [Nat.succ_mul] at h2
    refine ⟨d2, ?_⟩
    simp only [iterAlloc, hd, allocStep,
      limited_alloc_ok D (k * GRANULE_SIZE) (i * GRANULE_SIZE) d hle h d2 hnew]
    have : i * GRANULE_SIZE + GRANULE_SIZE = (i + 1) * GRANULE_SIZE := by ring
    rw [this]

/-- C3: for the budget decorator over a never-failing delegate with
maxBytes = k × GRANULE_SIZE: the first k consecutive allocate calls all
succeed and currentBytes climbs in granule steps; the (k+1)-th allocate
fails with BudgetExceeded leaving currentBytes unchanged at k granules;
after releasing one live handle a subsequent allocate succeeds again; and
the whole sequence of k allocations, one release and one more allocation
performs k+1 successful allocations in the instance's lifetime — the
budget bounds live, not cumulative, allocations. -/
theorem limited_budget_bounds_live {δ : Type} (D : Provider δ)
    (hD : neverFails D) (k : Nat) (hk : 1 ≤ k) (d0 : δ) (p : Nat) :
    (∀ i, i < k →
      ∃ h, ((LimitedStorageProvider D (k * GRANULE_SIZE)).newStorage
        (iterAlloc (LimitedStorageProvider D (k * GRANULE_SIZE)) i
          (0, d0))).1 = Except.ok h)
    ∧ (∀ i, i ≤ k →
      (iterAlloc (LimitedStorageProvider D (k * GRANULE_SIZE)) i (0, d0)).1
        = i * GRANULE_SIZE)
    ∧ ((LimitedStorageProvider D (k * GRANULE_SIZE)).newStorage
        (iterAlloc (LimitedStorageProvider D (k * GRANULE_SIZE)) k (0, d0)))
        = (Except.error AllocError.budgetExceeded,
          iterAlloc (LimitedStorageProvider D (k * GRANULE_SIZE)) k (0, d0))
    ∧ (∃ h, ((LimitedStorageProvider D (k * GRANULE_SIZE)).newStorage
        ((LimitedStorageProvider D (k * GRANULE_SIZE)).deleteStorage
          (iterAlloc (LimitedStorageProvider D (k * GRANULE_SIZE)) k (0, d0))
          (some p))).1 = Except.ok h)
    ∧ countOk (LimitedStorageProvider D (k * GRANULE_SIZE))
        (List.replicate k ProviderOp.alloc
          ++ [ProviderOp.release (some p), ProviderOp.alloc]) (0, d0)
        = k + 1 := by
  have hstep : ∀ i, i < k →
      ∃ h, ((LimitedStorageProvider D (k * GRANULE_SIZE)).newStorage
        (iterAlloc (LimitedStorageProvider D (k * GRANULE_SIZE)) i
          (0, d0))).1 = Except.ok h := by
    intro i hik
    obtain ⟨d, hd⟩ := limited_iterAlloc D hD k d0 i (Nat.le_of_lt hik)
    obtain ⟨h, d2, hnew⟩ := hD d
    have hle : i * GRANULE_SIZE + GRANULE_SIZE ≤ k * GRANULE_SIZE := by
      have h2 : (i + 1) * GRANULE_SIZE ≤ k * GRANULE_SIZE :=
        Nat.mul_le_mul_right GRANULE_SIZE hik
      rwa [Nat.succ_mul] at h2
    exact ⟨h, by
      rw [hd, limited_alloc_ok D (k * GRANULE_SIZE) (i * GRANULE_SIZE) d hle
        h d2 hnew]⟩
  obtain ⟨dk, hdk⟩ := limited_iterAlloc D hD k d0 k (Nat.le_refl k)
  have hreject : (LimitedStorageProvider D (k * GRANULE_SIZE)).newStorage
      (iterAlloc (LimitedStorageProvider D (k * GRANULE_SIZE)) k (0, d0))
      = (Except.error AllocError.budgetExceeded,
        iterAlloc (LimitedStorageProvider D (k * GRANULE_SIZE)) k (0, d0)) := by
    rw [hdk]
    exact limited_alloc_reject D (k * GRANULE_SIZE) (k * GRANULE_SIZE) dk
      (Nat.lt_add_of_pos_right GRANULE_SIZE_pos)
  have hGle : GRANULE_SIZE ≤ k * GRANULE_SIZE := by
    have : 1 * GRANULE_SIZE ≤ k * GRANULE_SIZE :=
      Nat.mul_le_mul_right GRANULE_SIZE hk
    omega
  have hafter : ∀ q : Nat, ∃ h,
      ((LimitedStorageProvider D (k * GRANULE_SIZE)).newStorage
        ((LimitedStorageProvider D (k * GRANULE_SIZE)).deleteStorage
          (iterAlloc (LimitedStorageProvider D (k * GRANULE_SIZE)) k (0, d0))
          (some q))).1 = Except.ok h := by
    intro q
    rw [hdk]
    obtain ⟨h, d2, hnew⟩ := hD (D.deleteStorage dk (some q))
    have hle : k * GRANULE_SIZE - GRANULE_SIZE + GRANULE_SIZE
        ≤ k * GRANULE_SIZE := by omega
    exact ⟨h, by
      show ((LimitedStorageProvider D (k * GRANULE_SIZE)).newStorage
        (k * GRANULE_SIZE - GRANULE_SIZE, D.deleteStorage dk (some q))).1
        = Except.ok h
      rw [limited_alloc_ok D (k * GRANULE_SIZE)
        (k * GRANULE_SIZE - GRANULE_SIZE) (D.deleteStorage dk (some q)) hle
        h d2 hnew]⟩
  refine ⟨hstep, fun i hik => ?_, hreject, hafter p, ?_⟩
  · obtain ⟨d, hd⟩ := limited_iterAlloc D hD k d0 i hik
    rw [hd]
  · rw [countOk_append]
    rw [countOk_replicate_alloc (LimitedStorageProvider D (k * GRANULE_SIZE))
      k (0, d0) hstep]
    rw [runOps_replicate_alloc]
    obtain ⟨h, hok⟩ := hafter p
    rcases hs : (LimitedStorageProvider D (k * GRANULE_SIZE)).newStorage
        ((LimitedStorageProvider D (k * GRANULE_SIZE)).deleteStorage
          (iterAlloc (LimitedStorageProvider D (k * GRANULE_SIZE)) k (0, d0))
          (some p)) with ⟨r, s2⟩
    have hr : r = Except.ok h := by
      have := hok
      rw [hs] at this
      exact this
    subst hr
    simp [countOk, runOps, hs]

/-- Witness for C3 at k = 1 over the OS-backed model: the second allocate
is rejected with BudgetExceeded and the run allocate-release-allocate
performs two successful allocations. -/
theorem limited_budget_bounds_live_witness :
    ((LimitedStorageProvider mmapProvider (1 * GRANULE_SIZE)).newStorage
        (iterAlloc (LimitedStorageProvider mmapProvider (1 * GRANULE_SIZE)) 1
          (0, (⟨0, []⟩ : MmapState))))
      = (Except.error AllocError.budgetExceeded,
        iterAlloc (LimitedStorageProvider mmapProvider (1 * GRANULE_SIZE)) 1
          (0, (⟨0, []⟩ : MmapState)))
    ∧ countOk (LimitedStorageProvider mmapProvider (1 * GRANULE_SIZE))
        (List.replicate 1 ProviderOp.alloc
          ++ [ProviderOp.release (some GRANULE_SIZE), ProviderOp.alloc])
        (0, (⟨0, []⟩ : MmapState)) = 2 :=
  ⟨(limited_budget_bounds_live mmapProvider mmap_neverFails 1 (Nat.le_refl 1)
      ⟨0, []⟩ GRANULE_SIZE).2.2.1,
    (limited_budget_bounds_live mmapProvider mmap_neverFails 1 (Nat.le_refl 1)
      ⟨0, []⟩ GRANULE_SIZE).2.2.2.2⟩

/-! ## release(null), the arena provider, and freshly built counters -/

/-- C7: release of the null handle is a safe no-op at every layer: neither
counter of the success-counting decorator changes, the failure-counting
decorator's counter does not change, the budget decorator's whole state
(currentBytes included, hence the remaining capacity) is untouched, the
OS-backed model returns nothing to the OS (its release log is unchanged),
the arena is untouched, and a full chain stacked over the OS-backed
provider is left in exactly the same state. -/
theorem release_null_noop {δ : Type} (D : Provider δ) (maxBytes : Nat) :
    (∀ s : LogSuccessState δ,
      ((LogSuccessStorageProvider D).deleteStorage s none).numAllocated
          = s.numAllocated
        ∧ ((LogSuccessStorageProvider D).deleteStorage s none).numDeleted
          = s.numDeleted)
    ∧ (∀ s : LogFailState δ,
      ((LogFailStorageProvider D).deleteStorage s none).numFailedAllocs
        = s.numFailedAllocs)
    ∧ (∀ s : Nat × δ,
      (LimitedStorageProvider D maxBytes).deleteStorage s none = s)
    ∧ (∀ s : MmapState, mmapProvider.deleteStorage s none = s)
    ∧ (∀ s : ArenaState, arenaProvider.deleteStorage s none = s)
    ∧ (∀ s : LogFailState (LogSuccessState (Nat × MmapState)),
      (LogFailStorageProvider (LogSuccessStorageProvider
        (LimitedStorageProvider mmapProvider maxBytes))).deleteStorage s none
        = s) :=
  ⟨fun _s => ⟨rfl, rfl⟩, fun _s => rfl, fun _s => rfl, fun _s => rfl,
    fun _s => rfl, fun _s => rfl⟩

/-- C8: the arena provider built with (minAmount = 0, maxAmount = 0,
excessBytes = 100): the up-front reservation covers at least one granule
(the nonzero excess is rounded up to a whole granule), construction
succeeds whenever the single raw reservation is granted, and the first
allocate call succeeds, returning the non-null base address of the
granule-sized first slot. -/
theorem preAllocated_withExcess (reserve : Nat → Option Nat) (b : Nat)
    (hb : b ≠ 0) (hres : reserve GRANULE_SIZE = some b) :
    GRANULE_SIZE ≤ granuleRoundUp 0 + granuleRoundUp 100
    ∧ preAllocatedProvider reserve 0 0 100
        = Except.ok ⟨b, 1, [], 0⟩
    ∧ (ArenaState.newStorage ⟨b, 1, [], 0⟩).1 = Except.ok b
    ∧ b ≠ 0 := by
  have htot : granuleRoundUp 0 + granuleRoundUp 100 = GRANULE_SIZE := by decide
  refine ⟨by omega, ?_, ?_, hb⟩
  · show (match reserve (granuleRoundUp 0 + granuleRoundUp 100) with
      | none => Except.error (AllocError.allocationFailed 0)
      | some b2 => Except.ok (⟨b2,
          (granuleRoundUp 0 + granuleRoundUp 100) / GRANULE_SIZE, [], 0⟩ :
            ArenaState))
      = Except.ok (⟨b, 1, [], 0⟩ : ArenaState)
    rw [htot, hres]
    have hdiv : GRANULE_SIZE / GRANULE_SIZE = 1 := by decide
    rw [hdiv]
  · show (if 0 < 1 then
        (Except.ok (b + 0 * GRANULE_SIZE),
          (⟨b, 1, [], 0 + 1⟩ : ArenaState))
      else (Except.error (AllocError.allocationFailed 0),
          (⟨b, 1, [], 0⟩ : ArenaState))).1
      = Except.ok b
    simp

/-- Witness for C8: the construction hypotheses discharged at a raw
reservation that grants one granule at address GRANULE_SIZE. -/
theorem preAllocated_withExcess_witness :
    preAllocatedProvider (fun _ => some GRANULE_SIZE) 0 0 100
      = Except.ok ⟨GRANULE_SIZE, 1, [], 0⟩
    ∧ (ArenaState.newStorage ⟨GRANULE_SIZE, 1, [], 0⟩).1
      = Except.ok GRANULE_SIZE :=
  ⟨(preAllocated_withExcess (fun _ => some GRANULE_SIZE) GRANULE_SIZE
      (by decide) rfl).2.1,
    (preAllocated_withExcess (fun _ => some GRANULE_SIZE) GRANULE_SIZE
      (by decide) rfl).2.2.1⟩

/-- C10: immediately after construction, every counter of the
instrumentation decorators is zero: numAllocated, numDeleted and numLive
of the success-counting decorator, and numFailedAllocs of the
failure-counting decorator, whatever the delegate. -/
theorem counters_start_at_zero {δ : Type} (d0 : δ) :
    (LogSuccessState.init d0).numAllocated = 0
    ∧ (LogSuccessState.init d0).numDeleted = 0
    ∧ (LogSuccessState.init d0).numLive = 0
    ∧ (LogFailState.init d0).numFailedAllocs = 0 :=
  ⟨rfl, rfl, rfl, rfl⟩

end Hermes
